import Mathlib

/-!
# Verification of the screening and scoring engine of `stock.py`

This file is a shallow embedding of `screen_stocks_for_opportunities`
(and the helper data flow around it) from `src/stock.py`, together with
theorems settling the specification claims about it.

Conventions of the embedding:
* Python floats are modelled as exact rationals `ℚ`.
* Calendar dates are modelled as integers (day numbers); `timedelta(days=k)`
  is integer addition.
* A fetched price series is a chronological list of `(date, close)` points.
* A Python expression that may raise inside the per-ticker `try` block is
  modelled in `Except Unit`; an uncaught raise (the SPY benchmark fetch)
  makes the whole screen return `none`.
* Python truthiness on optional fields (`if not x: continue`) is modelled
  via `Option.getD` with the falsy default (`""` for strings, `0` for
  numbers), which identifies `None` with the falsy value exactly as the
  code's `not x` test does.
-/

/-- One candidate from the upcoming-earnings calendar: `ticker_data` in the
source, with fields `symbol` and `reportDate` (the report date is only
copied into the output, so it stays an opaque string). -/
structure Candidate where
  symbol : String
  reportDate : String
deriving DecidableEq

/-- One point of a price series: a row of the `history(...)` dataframe,
restricted to the index date and the `Close` column (the only data the
engine reads). -/
structure PricePoint where
  date : Int
  close : ℚ
deriving DecidableEq

/-- The fields of `stock.info` read by the engine (`shortName`,
`marketCap`, `targetMeanPrice`, `currentPrice`); `info.get` yields `None`
for an absent field, modelled as `none`. -/
structure TickerInfo where
  shortName : Option String
  marketCap : Option ℚ
  targetMeanPrice : Option ℚ
  currentPrice : Option ℚ
deriving DecidableEq

/-- All external data reachable for one ticker inside the per-ticker
`try` block.  `info` and the `history` calls are network-bound and may
raise (`Except.error ()`); `get_historical_earnings_from_api` has its own
`try/except` returning `[]`, so it never raises. -/
structure TickerData where
  info : Except Unit TickerInfo
  earningsDates : List Int
  window : Int → Int → Except Unit (List PricePoint)
  hist30 : Except Unit (List PricePoint)

/-- The whole external world the screen reads: per-ticker data plus the
SPY benchmark's 30-day price series (fetched once, outside any `try`). -/
structure Env where
  fetch : String → TickerData
  spyHist : List PricePoint

/-- The output record appended to `screened_stocks` for an accepted
ticker (source lines 217-223). -/
structure Result where
  ticker : String
  company_name : String
  earnings_date : String
  move_score : ℚ
  avg_move : ℚ
  analyst_upside : ℚ
  stock_runup : ℚ
  win_rate : ℚ
  avg_pre_earnings_runup : ℚ
deriving DecidableEq

instance exceptDecEq {ε α : Type} [DecidableEq ε] [DecidableEq α] :
    DecidableEq (Except ε α)
  | .error e, .error f =>
      if h : e = f then .isTrue (by rw [h]) else .isFalse (by simp [h])
  | .error _, .ok _ => .isFalse (by simp)
  | .ok _, .error _ => .isFalse (by simp)
  | .ok a, .ok b =>
      if h : a = b then .isTrue (by rw [h]) else .isFalse (by simp [h])

/-- The symbol gate at source line 173: the anchored regex accepts
between one and five characters, all uppercase ASCII letters. -/
def symbolMatches (s : String) : Bool :=
  decide (1 ≤ s.length) && decide (s.length ≤ 5) &&
    s.toList.all (fun c => decide ('A' ≤ c ∧ c ≤ 'Z'))

/-- Python 3 `round` rounds exact halves to the even neighbour
(banker's rounding); away from a half it is rounding to nearest. -/
def roundHalfEven (x : ℚ) : ℤ :=
  if x - ⌊x⌋ = 1 / 2 then (if 2 ∣ ⌊x⌋ then ⌊x⌋ else ⌊x⌋ + 1) else round x

/-- Python `round(x, 2)`: round at two decimal places. -/
def round2 (x : ℚ) : ℚ :=
  (roundHalfEven (x * 100) : ℚ) / 100

/-- Source line 192-193: if the post-earnings window has at least two
points, the move is the percent change computed from `iloc[0]` to
`iloc[1]` — the first two points of the window; otherwise no move. -/
def postMoveOf (w : List PricePoint) : Option ℚ :=
  match w with
  | p0 :: p1 :: _ => some ((p1.close - p0.close) / p0.close * 100)
  | _ => none

/-- Source line 195-197: if the pre-earnings window is non-empty, the
run-up is the percent change from `iloc[0]` to `iloc[-1]` (first to last
point); otherwise no run-up. -/
def preRunupOf (w : List PricePoint) : Option ℚ :=
  match w with
  | [] => none
  | p0 :: rest => some (((rest.getLastD p0).close - p0.close) / p0.close * 100)

/-- The loop over `earnings_dates` (source lines 190-197): for each date,
fetch `[d-1, d+2)` and `[d-30, d)` windows (either fetch may raise, which
aborts the whole per-ticker block), and append the post-move and
pre-run-up when computable. -/
def collectMoves (d : TickerData) : List Int → Except Unit (List ℚ × List ℚ)
  | [] => Except.ok ([], [])
  | date :: rest =>
    match d.window (date - 1) (date + 2) with
    | .error e => .error e
    | .ok wPost =>
      match d.window (date - 30) date with
      | .error e => .error e
      | .ok wPre =>
        match collectMoves d rest with
        | .error e => .error e
        | .ok (pm, pr) =>
          .ok ((postMoveOf wPost).toList ++ pm, (preRunupOf wPre).toList ++ pr)

/-- Source line 201: `sum(abs(m) for m in post_moves) / len(post_moves)`. -/
def avgAbsMove (pm : List ℚ) : ℚ :=
  (pm.map fun m => |m|).sum / pm.length

/-- Source lines 202-203: `up_moves = sum(1 for m in post_moves if m > 0)`
then `win_rate = (up_moves / len(post_moves)) * 100`. -/
def winRatePct (pm : List ℚ) : ℚ :=
  ((pm.countP fun m => decide (0 < m) : ℕ) : ℚ) / pm.length * 100

/-- Source line 215: the composite score
`(avg_abs_move * 0.5) + (analyst_upside * 0.3) + (relative_runup * 0.2)`. -/
def moveScore (avg upside rel : ℚ) : ℚ :=
  avg * 0.5 + upside * 0.3 + rel * 0.2

/-- The body of the per-ticker `try` block (source lines 173-224) for one
candidate, given the precomputed benchmark run-up `spyRunup`:
`Except.error ()` models an exception reaching the `except` handler,
`.ok none` a `continue` at a quality gate, `.ok (some r)` a qualified
ticker appended to the accumulator. -/
def processData (d : TickerData) (spyRunup : ℚ) (t : Candidate) :
    Except Unit (Option Result) :=
  if ¬ symbolMatches t.symbol then .ok none else
  match d.info with
  | .error e => .error e
  | .ok info =>
    let companyName := info.shortName.getD ""
    if companyName.isEmpty then .ok none else
    let marketCap := info.marketCap.getD 0
    if marketCap = 0 ∨ marketCap < 10000000000 then .ok none else
    let targetPrice := info.targetMeanPrice.getD 0
    if targetPrice = 0 then .ok none else
    if d.earningsDates = [] then .ok none else
    match collectMoves d d.earningsDates with
    | .error e => .error e
    | .ok (postMoves, preRunups) =>
      if postMoves = [] then .ok none else
      let avgAbs := avgAbsMove postMoves
      let winRate := winRatePct postMoves
      let avgPre := if preRunups = [] then 0 else preRunups.sum / preRunups.length
      let currentPrice := info.currentPrice.getD 0
      if currentPrice = 0 then .ok none else
      let analystUpside := (targetPrice - currentPrice) / currentPrice * 100
      match d.hist30 with
      | .error e => .error e
      | .ok [] => .ok none
      | .ok (p0 :: rest) =>
        let currentRunup := ((rest.getLastD p0).close - p0.close) / p0.close * 100
        let relativeRunup := |currentRunup - spyRunup|
        .ok (some
          { ticker := t.symbol
            company_name := companyName
            earnings_date := t.reportDate
            move_score := round2 (moveScore avgAbs analystUpside relativeRunup)
            avg_move := round2 avgAbs
            analyst_upside := round2 analystUpside
            stock_runup := round2 currentRunup
            win_rate := round2 winRate
            avg_pre_earnings_runup := round2 avgPre })

/-- One iteration of the candidate loop: both an exception (caught at
source lines 226-228) and a gate `continue` leave the accumulator
unchanged, i.e. contribute `none`. -/
def processTicker (env : Env) (spyRunup : ℚ) (t : Candidate) : Option Result :=
  match processData (env.fetch t.symbol) spyRunup t with
  | .error _ => none
  | .ok r => r

/-- Source lines 166-168: the benchmark run-up, `(iloc[-1] - iloc[0]) /
iloc[0] * 100` over SPY's 30-day series.  This runs outside any `try`, so
an empty series (where `iloc` raises `IndexError`) aborts the screen:
modelled as `none`. -/
def spyRunupOf (env : Env) : Option ℚ :=
  match env.spyHist with
  | [] => none
  | p0 :: rest => some (((rest.getLastD p0).close - p0.close) / p0.close * 100)

/-- Source line 230: Python sorts `screened_stocks` by the score key with
`reverse=True`.  Python's `sorted` is stable, and with `reverse=True`
elements with equal keys keep their original relative order, which is
exactly `mergeSort` with the ordering `b.move_score ≤ a.move_score`. -/
def rankResults (l : List Result) : List Result :=
  l.mergeSort fun a b => decide (b.move_score ≤ a.move_score)

/-- The engine `screen_stocks_for_opportunities(tickers)` (source lines
162-230): compute the benchmark run-up once, run the per-ticker pipeline
over the candidates in order, and sort the accumulator by score, descending.
`none` models the uncaught crash when the benchmark series is empty. -/
def screen_stocks_for_opportunities (env : Env) (ts : List Candidate) :
    Option (List Result) :=
  (spyRunupOf env).map fun spyRunup =>
    rankResults (ts.filterMap (processTicker env spyRunup))

/-- The eight quality gates of the filter, in the order the source checks
them (lines 173-211): symbol pattern, company name, market cap present and
at least 10^10, analyst target present, some historical earnings date,
some computable post-earnings move, current price present, non-empty
30-day series. -/
def passesGates (d : TickerData) (t : Candidate) : Prop :=
  symbolMatches t.symbol = true ∧
  ∃ i, d.info = .ok i ∧
    ((i.shortName.getD "").isEmpty = false ∧
     (i.marketCap.getD 0 ≠ 0 ∧ 10000000000 ≤ i.marketCap.getD 0) ∧
     i.targetMeanPrice.getD 0 ≠ 0 ∧
     d.earningsDates ≠ [] ∧
     (∃ pm pr, collectMoves d d.earningsDates = .ok (pm, pr) ∧ pm ≠ []) ∧
     i.currentPrice.getD 0 ≠ 0 ∧
     (∃ w, d.hist30 = .ok w ∧ w ≠ []))

/-- Modelled from the spec (§4.1), for comparison with `postMoveOf`: the
post-earnings move as the spec words it — the percent change from the
price point immediately before the earnings date `d` to the price point
immediately after `d` (the window being chronological). -/
def postMoveSpecVersion (w : List PricePoint) (d : Int) : Option ℚ :=
  match (w.filter fun p => decide (p.date < d)).getLast?,
        (w.filter fun p => decide (d < p.date)).head? with
  | some pb, some pa => some ((pa.close - pb.close) / pb.close * 100)
  | _, _ => none

/-- The required `info` fields a quality gate tests for presence. -/
inductive InfoField
  | shortNameF | marketCapF | targetMeanPriceF | currentPriceF
deriving DecidableEq

/-- The field is absent (`info.get` returns `None`). -/
def fieldAbsent : InfoField → TickerInfo → Prop
  | .shortNameF, i => i.shortName = none
  | .marketCapF, i => i.marketCap = none
  | .targetMeanPriceF, i => i.targetMeanPrice = none
  | .currentPriceF, i => i.currentPrice = none

/-! ## Concrete scenarios used by the witness theorems

`envA` is a fully healthy single-ticker world: candidate `AAA` passes
every gate, with post-move `10`, pre-run-up `25`, win rate `100`,
analyst upside `20`, own 30-day run-up `20`, benchmark run-up `10`,
hence relative run-up `10` and score `10*0.5 + 20*0.3 + 10*0.2 = 13`.
The other environments are small mutations of it. -/

/-- Candidate `AAA`, reporting 2024-05-01. -/
def tA : Candidate := ⟨"AAA", "2024-05-01"⟩

/-- The fundamentals snapshot of the healthy scenario. -/
def infoA : TickerInfo := ⟨some "Alpha Co", some 20000000000, some 12, some 10⟩

/-- Healthy ticker data: one earnings date (day 100), a 2-point
post-earnings window, a 2-point pre-earnings window, a 2-point 30-day
series. -/
def dataA : TickerData where
  info := .ok infoA
  earningsDates := [100]
  window := fun s _ =>
    if s = 99 then .ok [⟨99, 10⟩, ⟨100, 11⟩]
    else if s = 70 then .ok [⟨70, 8⟩, ⟨100, 10⟩]
    else .ok []
  hist30 := .ok [⟨0, 10⟩, ⟨1, 12⟩]

/-- Healthy environment: every symbol resolves to `dataA`; the SPY series
gives a benchmark run-up of `10`. -/
def envA : Env := ⟨fun _ => dataA, [⟨0, 10⟩, ⟨1, 11⟩]⟩

/-- The screening record `envA` produces for `tA`. -/
def rA : Result := ⟨"AAA", "Alpha Co", "2024-05-01", 13, 10, 20, 20, 100, 25⟩

/-- A second candidate for the tie-break scenario. -/
def tB : Candidate := ⟨"BBB", "2024-05-02"⟩

/-- Same numbers as `infoA`, different display name. -/
def infoB : TickerInfo := ⟨some "Beta Co", some 20000000000, some 12, some 10⟩

/-- Same market data as `dataA` under a different company name, so the
resulting score ties with `rA`. -/
def dataB : TickerData := { dataA with info := .ok infoB }

/-- Two-candidate world where `AAA` and `BBB` score identically. -/
def envD : Env := ⟨fun s => if s = "BBB" then dataB else dataA, [⟨0, 10⟩, ⟨1, 11⟩]⟩

/-- The record `envD` produces for `tB`: same score `13` as `rA`. -/
def rB : Result := ⟨"BBB", "Beta Co", "2024-05-02", 13, 10, 20, 20, 100, 25⟩

/-- A ticker whose very first fetch (`stock.info`) raises. -/
def dataErr : TickerData where
  info := .error ()
  earningsDates := []
  window := fun _ _ => .ok []
  hist30 := .ok []

/-- World where fetching `BBB` raises and every other symbol is healthy. -/
def envE : Env := ⟨fun s => if s = "BBB" then dataErr else dataA, [⟨0, 10⟩, ⟨1, 11⟩]⟩

/-- A third candidate processed after the failing one. -/
def tC : Candidate := ⟨"CCC", "2024-05-03"⟩

/-- Like `dataA` but every pre-earnings window comes back empty, so the
run-up set is empty while the post-move set is not. -/
def dataPre : TickerData where
  info := .ok infoA
  earningsDates := [100]
  window := fun s _ => if s = 99 then .ok [⟨99, 10⟩, ⟨100, 11⟩] else .ok []
  hist30 := .ok [⟨0, 10⟩, ⟨1, 12⟩]

/-- World built on `dataPre`. -/
def envPre : Env := ⟨fun _ => dataPre, [⟨0, 10⟩, ⟨1, 11⟩]⟩

/-- The record of the empty-pre-run-up scenario: accepted, with
`avg_pre_earnings_runup = 0`. -/
def rPre : Result := ⟨"AAA", "Alpha Co", "2024-05-01", 13, 10, 20, 20, 100, 0⟩

/-- Like `dataA` but every price window is empty, so no post-earnings
move is computable. -/
def dataNoMove : TickerData where
  info := .ok infoA
  earningsDates := [100]
  window := fun _ _ => .ok []
  hist30 := .ok [⟨0, 10⟩, ⟨1, 12⟩]

/-- World built on `dataNoMove`. -/
def envNoMove : Env := ⟨fun _ => dataNoMove, [⟨0, 10⟩, ⟨1, 11⟩]⟩

/-- Like `infoA` with the analyst target absent. -/
def infoF : TickerInfo := ⟨some "Alpha Co", some 20000000000, none, some 10⟩

/-- Ticker data with a missing `targetMeanPrice`. -/
def dataF : TickerData := { dataA with info := .ok infoF }

/-- World built on `dataF`. -/
def envF : Env := ⟨fun _ => dataF, [⟨0, 10⟩, ⟨1, 11⟩]⟩

/-- Like `dataA` but the 30-day series starts at a close of `0`: the
series is non-empty, so the ticker passes gate 8, and the 30-day run-up
division is then performed with denominator `0`. -/
def dataZ : TickerData := { dataA with hist30 := .ok [⟨0, 0⟩, ⟨1, 5⟩] }

/-- World built on `dataZ`. -/
def envZ : Env := ⟨fun _ => dataZ, [⟨0, 10⟩, ⟨1, 11⟩]⟩

/-- The record `envZ` produces for `tA`: in the exact-rational model the
zero-denominator division evaluates to `0`, so the stored 30-day run-up
is `0` (numpy would produce `inf`); either way the ticker is accepted,
not rejected. -/
def rZ : Result := ⟨"AAA", "Alpha Co", "2024-05-01", 13, 10, 20, 0, 100, 25⟩

/-- A 3-point post-earnings window around earnings date `0`: trading days
`-1`, `0`, `1` with closes `100`, `110`, `120`. -/
def wC2 : List PricePoint := [⟨-1, 100⟩, ⟨0, 110⟩, ⟨1, 120⟩]

/-! ## Helper lemmas -/

/-- Inversion of a successful per-ticker pass: a qualified ticker passed
every gate, and the appended record is exactly the one built at source
lines 217-223. -/
theorem processData_ok_some {d : TickerData} {sr : ℚ} {t : Candidate} {r : Result}
    (h : processData d sr t = .ok (some r)) :
    ∃ i pm pr p0 prest,
      symbolMatches t.symbol = true ∧
      d.info = .ok i ∧
      (i.shortName.getD "").isEmpty = false ∧
      ¬(i.marketCap.getD 0 = 0 ∨ i.marketCap.getD 0 < 10000000000) ∧
      i.targetMeanPrice.getD 0 ≠ 0 ∧
      d.earningsDates ≠ [] ∧
      collectMoves d d.earningsDates = .ok (pm, pr) ∧
      pm ≠ [] ∧
      i.currentPrice.getD 0 ≠ 0 ∧
      d.hist30 = .ok (p0 :: prest) ∧
      r = { ticker := t.symbol
            company_name := i.shortName.getD ""
            earnings_date := t.reportDate
            move_score := round2 (moveScore (avgAbsMove pm)
              ((i.targetMeanPrice.getD 0 - i.currentPrice.getD 0) /
                i.currentPrice.getD 0 * 100)
              |((prest.getLastD p0).close - p0.close) / p0.close * 100 - sr|)
            avg_move := round2 (avgAbsMove pm)
            analyst_upside := round2 ((i.targetMeanPrice.getD 0 - i.currentPrice.getD 0) /
              i.currentPrice.getD 0 * 100)
            stock_runup := round2 (((prest.getLastD p0).close - p0.close) / p0.close * 100)
            win_rate := round2 (winRatePct pm)
            avg_pre_earnings_runup := round2 (if pr = [] then 0 else pr.sum / pr.length) } := by
  simp only [processData] at h
  split at h
  · simp at h
  next hsym =>
    split at h
    · simp at h
    next i hinfo =>
      split at h
      · simp at h
      next hname =>
        split at h
        · simp at h
        next hcap =>
          split at h
          · simp at h
          next htarget =>
            split at h
            · simp at h
            next hdates =>
              split at h
              · simp at h
              next pm pr hcollect =>
                split at h
                · simp at h
                next hpm =>
                  split at h
                  · simp at h
                  next hcp =>
                    split at h
                    · simp at h
                    · simp at h
                    next p0 prest hhist =>
                      simp only [Except.ok.injEq, Option.some.injEq] at h
                      exact ⟨i, pm, pr, p0, prest, not_not.mp hsym, hinfo,
                        Bool.not_eq_true _ ▸ hname, hcap, htarget, hdates,
                        hcollect, hpm, hcp, hhist, h.symm⟩

/-- A qualified ticker passed every quality gate. -/
theorem passesGates_of_ok_some {d : TickerData} {sr : ℚ} {t : Candidate} {r : Result}
    (h : processData d sr t = .ok (some r)) : passesGates d t := by
  obtain ⟨i, pm, pr, p0, prest, hsym, hinfo, hname, hcap, htarget, hdates,
    hcollect, hpm, hcp, hhist, -⟩ := processData_ok_some h
  rw [not_or, not_lt] at hcap
  exact ⟨hsym, i, hinfo, hname, ⟨hcap.1, hcap.2⟩, htarget, hdates,
    ⟨pm, pr, hcollect, hpm⟩, hcp, ⟨p0 :: prest, hhist, by simp⟩⟩

/-- A gate failure (or an exception) means the candidate contributes
nothing to the accumulator. -/
theorem processTicker_eq_none {env : Env} {sr : ℚ} {t : Candidate}
    (h : ¬ passesGates (env.fetch t.symbol) t) : processTicker env sr t = none := by
  unfold processTicker
  cases hp : processData (env.fetch t.symbol) sr t with
  | error e => rfl
  | ok o =>
    cases o with
    | none => rfl
    | some r => exact absurd (passesGates_of_ok_some hp) h

/-- The sort relation used at source line 230 is transitive. -/
theorem scoreLE_trans (a b c : Result)
    (h1 : decide (b.move_score ≤ a.move_score) = true)
    (h2 : decide (c.move_score ≤ b.move_score) = true) :
    decide (c.move_score ≤ a.move_score) = true := by
  simp only [decide_eq_true_eq] at *
  exact le_trans h2 h1

/-- The sort relation used at source line 230 is total. -/
theorem scoreLE_total (a b : Result) :
    (decide (b.move_score ≤ a.move_score) || decide (a.move_score ≤ b.move_score)) = true := by
  simp [le_total]

/-- Unfolding of a successful screen: a benchmark run-up exists and the
output is the ranked accumulator. -/
theorem screen_eq_some {env : Env} {ts : List Candidate} {out : List Result}
    (h : screen_stocks_for_opportunities env ts = some out) :
    ∃ sr, spyRunupOf env = some sr ∧
      out = rankResults (ts.filterMap (processTicker env sr)) := by
  unfold screen_stocks_for_opportunities at h
  cases hsp : spyRunupOf env with
  | none => rw [hsp] at h; simp at h
  | some sr =>
    rw [hsp] at h
    simp only [Option.map_some', Option.some.injEq] at h
    exact ⟨sr, rfl, h.symm⟩

/-- Evaluation rule for the screen on a concrete world whose accumulator
is already sorted (used by the witness theorems; the ranked output of a
sorted accumulator is itself). -/
theorem screen_eq_of_sorted {env : Env} {ts : List Candidate} {sr : ℚ}
    {acc : List Result}
    (h1 : spyRunupOf env = some sr)
    (h2 : ts.filterMap (processTicker env sr) = acc)
    (h3 : acc.Pairwise fun a b => b.move_score ≤ a.move_score) :
    screen_stocks_for_opportunities env ts = some acc := by
  unfold screen_stocks_for_opportunities rankResults
  rw [h1, Option.map_some', h2,
    List.mergeSort_of_sorted (h3.imp fun hab => decide_eq_true hab)]

/-- The record built for a qualified ticker, expressed through the
fetched data (determinism of the pipeline). -/
theorem processData_fields {d : TickerData} {sr : ℚ} {t : Candidate} {r : Result}
    {i : TickerInfo} {pm pr : List ℚ} {p0 : PricePoint} {prest : List PricePoint}
    (h : processData d sr t = .ok (some r))
    (hinfo : d.info = .ok i)
    (hcollect : collectMoves d d.earningsDates = .ok (pm, pr))
    (hhist : d.hist30 = .ok (p0 :: prest)) :
    r = { ticker := t.symbol
          company_name := i.shortName.getD ""
          earnings_date := t.reportDate
          move_score := round2 (moveScore (avgAbsMove pm)
            ((i.targetMeanPrice.getD 0 - i.currentPrice.getD 0) /
              i.currentPrice.getD 0 * 100)
            |((prest.getLastD p0).close - p0.close) / p0.close * 100 - sr|)
          avg_move := round2 (avgAbsMove pm)
          analyst_upside := round2 ((i.targetMeanPrice.getD 0 - i.currentPrice.getD 0) /
            i.currentPrice.getD 0 * 100)
          stock_runup := round2 (((prest.getLastD p0).close - p0.close) / p0.close * 100)
          win_rate := round2 (winRatePct pm)
          avg_pre_earnings_runup := round2 (if pr = [] then 0 else pr.sum / pr.length) } := by
  obtain ⟨i', pm', pr', p0', prest', -, hinfo', -, -, -, -, hcollect', -, -, hhist', hr⟩ :=
    processData_ok_some h
  rw [hinfo] at hinfo'
  rw [hcollect] at hcollect'
  rw [hhist] at hhist'
  simp only [Except.ok.injEq, Prod.mk.injEq, List.cons.injEq] at hinfo' hcollect' hhist'
  obtain ⟨rfl, rfl⟩ := hcollect'
  obtain ⟨rfl, rfl⟩ := hhist'
  subst hinfo'
  exact hr

/-- Concrete evaluation: the healthy world accepts `tA` as `rA`. -/
theorem dataA_processed : processData dataA 10 tA = .ok (some rA) := by
  have hs : symbolMatches "AAA" = true := by decide
  have hn : "Alpha Co".isEmpty = false := by decide
  norm_num [processData, dataA, infoA, tA, rA, collectMoves,
    postMoveOf, preRunupOf, avgAbsMove, winRatePct, moveScore, round2,
    roundHalfEven, round_eq, hs, hn]

/-- Concrete evaluation: the moves collected in the healthy world. -/
theorem dataA_collected : collectMoves dataA dataA.earningsDates = .ok ([10], [25]) := by
  norm_num [collectMoves, dataA, postMoveOf, preRunupOf]

/-! ## C1 — the composite score formula -/

/-- C1 counterexample: the claim's concrete value is wrong.  For features
`(avgAbsPostMove, analystUpsidePct, relativeRunup) = (5, 10, 2)` the
score computed at source line 215 is `5*0.5 + 10*0.3 + 2*0.2 = 5.9`,
not `6.4` as the claim asserts. -/
theorem C1_counterexample :
    moveScore 5 10 2 ≠ 6.4 ∧ moveScore 5 10 2 = 5.9 := by
  constructor <;> norm_num [moveScore]

/-- C1 (amended): for every accepted ticker the composite score is
`avgAbsPostMove * 0.5 + analystUpsidePct * 0.3 + relativeRunup * 0.2`
(the stored field being that value rounded to 2 decimals), and for the
features `(5.0, 10.0, 2.0)` the score equals `5.9`. -/
theorem C1_score_formula :
    (∀ avg upside rel : ℚ,
        moveScore avg upside rel = avg * 0.5 + upside * 0.3 + rel * 0.2) ∧
    (∀ (d : TickerData) (sr : ℚ) (t : Candidate) (r : Result) (i : TickerInfo)
        (pm pr : List ℚ) (p0 : PricePoint) (prest : List PricePoint),
        processData d sr t = .ok (some r) →
        d.info = .ok i →
        collectMoves d d.earningsDates = .ok (pm, pr) →
        d.hist30 = .ok (p0 :: prest) →
        r.move_score = round2 (moveScore (avgAbsMove pm)
          ((i.targetMeanPrice.getD 0 - i.currentPrice.getD 0) /
            i.currentPrice.getD 0 * 100)
          |((prest.getLastD p0).close - p0.close) / p0.close * 100 - sr|)) ∧
    moveScore 5 10 2 = 5.9 := by
  refine ⟨fun _ _ _ => rfl, ?_, by norm_num [moveScore]⟩
  intro d sr t r i pm pr p0 prest h hinfo hcollect hhist
  rw [processData_fields h hinfo hcollect hhist]

/-- C1 witness: the healthy concrete world instantiates the amended
theorem's pipeline part. -/
theorem C1_score_formula_witness :
    rA.move_score = round2 (moveScore (avgAbsMove [10])
      ((infoA.targetMeanPrice.getD 0 - infoA.currentPrice.getD 0) /
        infoA.currentPrice.getD 0 * 100)
      |((([⟨1, 12⟩] : List PricePoint).getLastD ⟨0, 10⟩).close -
          (⟨0, 10⟩ : PricePoint).close) / (⟨0, 10⟩ : PricePoint).close * 100 - 10|) :=
  C1_score_formula.2.1 dataA 10 tA rA infoA [10] [25] ⟨0, 10⟩ [⟨1, 12⟩]
    dataA_processed rfl dataA_collected rfl

/-! ## C2 — the post-earnings move computation -/

/-- C2 counterexample: the claim (and spec §4.1) say the move is the
percent change from the point immediately before the earnings date to
the point immediately after it.  The code (source line 193) instead uses
`iloc[0]` and `iloc[1]`, the first two points of the `[d-1, d+2)`
window.  On the 3-point window `wC2` around `d = 0` the code computes
the change from day `-1` to day `0` (`10`), while the claimed value is
the change from day `-1` to day `1` (`20`). -/
theorem C2_counterexample :
    2 ≤ wC2.length ∧
    postMoveOf wC2 = some 10 ∧
    postMoveSpecVersion wC2 0 = some 20 ∧
    postMoveOf wC2 ≠ postMoveSpecVersion wC2 0 := by
  refine ⟨by norm_num [wC2], ?_, ?_, ?_⟩ <;>
    norm_num [postMoveOf, postMoveSpecVersion, wC2, List.filter]

/-- C2 (amended): for every earnings-date window with at least 2 points,
the recorded post-move is the percent change from the first point of the
window to its second point; windows with fewer than 2 points contribute
no post-move and are silently skipped. -/
theorem C2_post_move :
    (∀ (p0 p1 : PricePoint) (rest : List PricePoint),
        postMoveOf (p0 :: p1 :: rest) =
          some ((p1.close - p0.close) / p0.close * 100)) ∧
    (∀ w : List PricePoint, w.length < 2 → postMoveOf w = none) := by
  refine ⟨fun _ _ _ => rfl, fun w hw => ?_⟩
  match w with
  | [] => rfl
  | [_] => rfl
  | _ :: _ :: _ => exact absurd hw (by simp)

/-- C2 witness: the short-window skip instantiated at a 1-point window. -/
theorem C2_post_move_witness :
    postMoveOf [(⟨0, 7⟩ : PricePoint)] = none :=
  C2_post_move.2 [⟨0, 7⟩] (by norm_num)

/-- A candidate contributing a record had a successful per-ticker pass. -/
theorem processData_of_processTicker {env : Env} {sr : ℚ} {t : Candidate} {r : Result}
    (h : processTicker env sr t = some r) :
    processData (env.fetch t.symbol) sr t = .ok (some r) := by
  unfold processTicker at h
  split at h
  · exact absurd h (by simp)
  next o heq => rw [heq, h]

/-- Concrete evaluation: the healthy world, seen through `processTicker`. -/
theorem envA_ticker : processTicker envA 10 tA = some rA := by
  unfold processTicker
  rw [show envA.fetch tA.symbol = dataA from rfl, dataA_processed]

/-! ## C3 — division-by-zero protection -/

/-- C3 counterexample: the claim says every percent-change denominator is
guaranteed non-zero or the ticker is rejected.  In `envZ` the 30-day
series is `[(0, 0), (1, 5)]`: it is non-empty, so gate 8 passes, the
ticker is accepted (not rejected), and the 30-day run-up division at
source line 212 is performed with start value `0` as its denominator
(numpy evaluates it to `inf` rather than raising; the exact-rational
model evaluates it to `0`). -/
theorem C3_counterexample :
    processTicker envZ 10 tA = some rZ ∧
    (envZ.fetch tA.symbol).hist30 = .ok [⟨0, 0⟩, ⟨1, 5⟩] ∧
    ((⟨0, 0⟩ : PricePoint)).close = 0 := by
  have hs : symbolMatches "AAA" = true := by decide
  have hn : "Alpha Co".isEmpty = false := by decide
  refine ⟨?_, rfl, rfl⟩
  norm_num [processTicker, processData, envZ, dataZ, dataA, infoA, tA, rZ,
    collectMoves, postMoveOf, preRunupOf, avgAbsMove, winRatePct, moveScore,
    round2, roundHalfEven, round_eq, hs, hn]

/-- C3 (amended): only the analyst-upside denominator is guarded — an
accepted ticker always has a present, non-zero `currentPrice` (a falsy
one is rejected at gate 7 before the division at source line 208).  The
start closes of the post-move, pre-run-up and 30-day windows carry no
such guarantee (see the counterexample). -/
theorem C3_division_guard :
    ∀ (env : Env) (sr : ℚ) (t : Candidate) (r : Result),
      processTicker env sr t = some r →
      ∃ i cp, (env.fetch t.symbol).info = .ok i ∧
        i.currentPrice = some cp ∧ cp ≠ 0 := by
  intro env sr t r h
  obtain ⟨i, pm, pr, p0, prest, -, hinfo, -, -, -, -, -, -, hcp, -, -⟩ :=
    processData_ok_some (processData_of_processTicker h)
  refine ⟨i, ?_⟩
  cases hc : i.currentPrice with
  | none => rw [hc] at hcp; simp at hcp
  | some cp =>
    rw [hc] at hcp
    exact ⟨cp, hinfo, rfl, by simpa using hcp⟩

/-- C3 witness: the guard instantiated in the healthy concrete world. -/
theorem C3_division_guard_witness :
    ∃ i cp, (envA.fetch tA.symbol).info = .ok i ∧
      i.currentPrice = some cp ∧ cp ≠ 0 :=
  C3_division_guard envA 10 tA rA envA_ticker

/-- Concrete evaluation: the healthy single-candidate screen. -/
theorem envA_screen : screen_stocks_for_opportunities envA [tA] = some [rA] :=
  @screen_eq_of_sorted envA [tA] 10 [rA] (by norm_num [spyRunupOf, envA])
    (by rw [List.filterMap_cons_some envA_ticker]; rfl)
    (List.pairwise_singleton _ _)

/-! ## C4 — the quality gates -/

/-- C4: every record in the output belongs to a candidate that passed all
eight quality gates (symbol pattern, company name, market cap present and
at least 10^10, analyst target, some earnings date, some computable
post-move, current price, non-empty 30-day series — checked in that order
at source lines 173-211), and a candidate failing any gate is silently
dropped: removing it from the candidate list leaves the output unchanged,
so screening continues over the remaining candidates. -/
theorem C4_quality_gates :
    ∀ (env : Env) (ts : List Candidate) (out : List Result),
      screen_stocks_for_opportunities env ts = some out →
      (∀ r ∈ out, ∃ t ∈ ts, passesGates (env.fetch t.symbol) t) ∧
      (∀ t : Candidate, ¬ passesGates (env.fetch t.symbol) t →
        ∀ l1 l2 : List Candidate,
          screen_stocks_for_opportunities env (l1 ++ t :: l2) =
            screen_stocks_for_opportunities env (l1 ++ l2)) := by
  intro env ts out hscreen
  obtain ⟨sr, hsp, hout⟩ := screen_eq_some hscreen
  constructor
  · intro r hr
    rw [hout] at hr
    unfold rankResults at hr
    rw [List.mem_mergeSort] at hr
    obtain ⟨t, hts, hpt⟩ := List.mem_filterMap.mp hr
    exact ⟨t, hts, passesGates_of_ok_some (processData_of_processTicker hpt)⟩
  · intro t hng l1 l2
    unfold screen_stocks_for_opportunities
    rw [hsp]
    simp only [Option.map_some', Option.some.injEq]
    unfold rankResults
    rw [List.filterMap_append, List.filterMap_append,
      List.filterMap_cons_none (processTicker_eq_none hng)]

/-- C4 witness: the gate theorem instantiated in the healthy world. -/
theorem C4_quality_gates_witness :
    (∀ r ∈ [rA], ∃ t ∈ [tA], passesGates (envA.fetch t.symbol) t) ∧
    (∀ t : Candidate, ¬ passesGates (envA.fetch t.symbol) t →
      ∀ l1 l2 : List Candidate,
        screen_stocks_for_opportunities envA (l1 ++ t :: l2) =
          screen_stocks_for_opportunities envA (l1 ++ l2)) :=
  C4_quality_gates envA [tA] [rA] envA_screen

/-! ## C5 — descending order and stable tie-break -/

/-- C5: the returned sequence is sorted by `move_score` descending, and
ties keep input order: filtering the output at any fixed score value `s`
yields exactly the records of the (input-ordered) accumulator with that
score, in the accumulator's order — so of two equal-score records, the
one whose candidate came first in the input appears first.  (Python's
`sorted(..., reverse=True)` is stable; the model's `mergeSort` with the
reversed comparison is exactly that.) -/
theorem C5_ranking :
    ∀ (env : Env) (ts : List Candidate) (out : List Result) (sr s : ℚ),
      spyRunupOf env = some sr →
      screen_stocks_for_opportunities env ts = some out →
      out.Pairwise (fun a b => b.move_score ≤ a.move_score) ∧
      out.filter (fun r => decide (r.move_score = s)) =
        (ts.filterMap (processTicker env sr)).filter
          (fun r => decide (r.move_score = s)) := by
  intro env ts out sr s hsp hscreen
  obtain ⟨sr', hsp', hout⟩ := screen_eq_some hscreen
  rw [hsp] at hsp'
  injection hsp' with he
  subst he
  unfold rankResults at hout
  constructor
  · rw [hout]
    exact (List.sorted_mergeSort scoreLE_trans scoreLE_total _).imp
      fun hab => of_decide_eq_true hab
  · set acc := ts.filterMap (processTicker env sr) with hacc
    set p := fun r : Result => decide (r.move_score = s) with hp
    have hcp : (acc.filter p).Pairwise
        (fun a b => decide (b.move_score ≤ a.move_score) = true) := by
      apply List.pairwise_of_forall_mem_list
      intro a ha b hb
      have ha' : a.move_score = s := of_decide_eq_true (List.mem_filter.mp ha).2
      have hb' : b.move_score = s := of_decide_eq_true (List.mem_filter.mp hb).2
      exact decide_eq_true (by rw [ha', hb'])
    have hsub : List.Sublist (acc.filter p) out := by
      rw [hout]
      exact List.sublist_mergeSort scoreLE_trans scoreLE_total hcp
        (List.filter_sublist acc)
    have hfix : (acc.filter p).filter p = acc.filter p :=
      List.filter_eq_self.mpr fun a ha => (List.mem_filter.mp ha).2
    have hsub2 : List.Sublist (acc.filter p) (out.filter p) := hfix ▸ hsub.filter p
    have hperm : List.Perm (out.filter p) (acc.filter p) := by
      rw [hout]
      exact (List.mergeSort_perm acc _).filter p
    exact (hsub2.eq_of_length hperm.length_eq.symm).symm

/-- Concrete evaluation: `BBB` in the tie world. -/
theorem dataB_processed : processData dataB 10 tB = .ok (some rB) := by
  have hs : symbolMatches "BBB" = true := by decide
  have hn : "Beta Co".isEmpty = false := by decide
  norm_num [processData, dataB, dataA, infoB, tB, rB, collectMoves,
    postMoveOf, preRunupOf, avgAbsMove, winRatePct, moveScore, round2,
    roundHalfEven, round_eq, hs, hn]

/-- Concrete evaluation: `AAA` through the tie world. -/
theorem envD_tickerA : processTicker envD 10 tA = some rA := by
  unfold processTicker
  rw [show envD.fetch tA.symbol = dataA from by simp [envD, tA], dataA_processed]

/-- Concrete evaluation: `BBB` through the tie world. -/
theorem envD_tickerB : processTicker envD 10 tB = some rB := by
  unfold processTicker
  rw [show envD.fetch tB.symbol = dataB from by simp [envD, tB], dataB_processed]

/-- Concrete evaluation: the two-candidate tie screen. -/
theorem envD_screen :
    screen_stocks_for_opportunities envD [tA, tB] = some [rA, rB] :=
  @screen_eq_of_sorted envD [tA, tB] 10 [rA, rB] (by norm_num [spyRunupOf, envD])
    (by rw [List.filterMap_cons_some envD_tickerA,
            List.filterMap_cons_some envD_tickerB]; rfl)
    (by norm_num [List.pairwise_cons, rA, rB])

/-- C5 witness: in the tie world, `AAA` and `BBB` both score `13`; the
ranked output keeps `AAA` (earlier in the input) before `BBB`. -/
theorem C5_ranking_witness :
    ([rA, rB].Pairwise fun a b => b.move_score ≤ a.move_score) ∧
    [rA, rB].filter (fun r => decide (r.move_score = 13)) =
      ([tA, tB].filterMap (processTicker envD 10)).filter
        (fun r => decide (r.move_score = 13)) :=
  C5_ranking envD [tA, tB] [rA, rB] 10 13 (by norm_num [spyRunupOf, envD])
    envD_screen

/-! ## C6 — per-ticker fault isolation -/

/-- C6: if the per-ticker work for candidate `b` raises, `b` contributes
nothing (the handler at source lines 226-228 turns the exception into a
`continue`), and the ranked output over any candidate list containing `b`
equals the output over the same list without `b`: every other candidate,
before or after `b`, appears exactly as it would have, and `b` is
absent. -/
theorem C6_fault_isolation :
    ∀ (env : Env) (sr : ℚ) (l1 l2 : List Candidate) (b : Candidate),
      spyRunupOf env = some sr →
      processData (env.fetch b.symbol) sr b = .error () →
      processTicker env sr b = none ∧
      screen_stocks_for_opportunities env (l1 ++ b :: l2) =
        screen_stocks_for_opportunities env (l1 ++ l2) := by
  intro env sr l1 l2 b hsp herr
  have hnone : processTicker env sr b = none := by
    unfold processTicker
    rw [herr]
  refine ⟨hnone, ?_⟩
  unfold screen_stocks_for_opportunities
  rw [hsp]
  simp only [Option.map_some', Option.some.injEq]
  unfold rankResults
  rw [List.filterMap_append, List.filterMap_append,
    List.filterMap_cons_none hnone]

/-- C6 witness: in `envE` the fetch for `BBB` raises; `AAA` (before) and
`CCC` (after) are ranked exactly as without `BBB`, and `BBB` is absent. -/
theorem C6_fault_isolation_witness :
    processTicker envE 10 tB = none ∧
    screen_stocks_for_opportunities envE ([tA] ++ tB :: [tC]) =
      screen_stocks_for_opportunities envE ([tA] ++ [tC]) :=
  C6_fault_isolation envE 10 [tA] [tC] tB (by norm_num [spyRunupOf, envE])
    (by
      have hs : symbolMatches "BBB" = true := by decide
      rw [show envE.fetch tB.symbol = dataErr from by simp [envE, tB]]
      simp [processData, dataErr, tB, hs])

/-! ## C7 — the empty-set asymmetry -/

/-- C7: an empty post-move set rejects the ticker (source line 199),
while an empty pre-run-up set only flattens `avg_pre_earnings_runup` to
`0` without rejecting (source line 204) — the two empty-set cases are
asymmetric. -/
theorem C7_empty_sets :
    ∀ (env : Env) (sr : ℚ) (t : Candidate) (pm pr : List ℚ),
      collectMoves (env.fetch t.symbol) (env.fetch t.symbol).earningsDates =
        .ok (pm, pr) →
      (pm = [] → processTicker env sr t = none) ∧
      (∀ r : Result, processTicker env sr t = some r → pr = [] →
        r.avg_pre_earnings_runup = 0) := by
  intro env sr t pm pr hcollect
  constructor
  · intro hpm
    unfold processTicker
    cases hp : processData (env.fetch t.symbol) sr t with
    | error e => rfl
    | ok o =>
      cases o with
      | none => rfl
      | some r =>
        obtain ⟨i, pm', pr', p0, prest, -, -, -, -, -, -, hcollect', hpm', -, -, -⟩ :=
          processData_ok_some hp
        rw [hcollect] at hcollect'
        simp only [Except.ok.injEq, Prod.mk.injEq] at hcollect'
        obtain ⟨rfl, rfl⟩ := hcollect'
        exact absurd hpm hpm'
  · intro r hr hpr
    have hp := processData_of_processTicker hr
    obtain ⟨i, pm', pr', p0, prest, -, hinfo, -, -, -, -, hcollect', -, -, hhist, -⟩ :=
      processData_ok_some hp
    rw [hcollect] at hcollect'
    simp only [Except.ok.injEq, Prod.mk.injEq] at hcollect'
    obtain ⟨rfl, rfl⟩ := hcollect'
    rw [processData_fields hp hinfo hcollect hhist]
    show round2 (if pr = [] then 0 else pr.sum / pr.length) = 0
    rw [if_pos hpr]
    norm_num [round2, roundHalfEven, round_eq]

/-- C7 witness: in `envNoMove` every window is empty, so the post-move
set is empty and the ticker is rejected; in `envPre` only the pre-run-up
set is empty, and the ticker is accepted with `avg_pre_earnings_runup =
0`. -/
theorem C7_empty_sets_witness :
    processTicker envNoMove 10 tA = none ∧
    rPre.avg_pre_earnings_runup = 0 := by
  have hs : symbolMatches "AAA" = true := by decide
  have hn : "Alpha Co".isEmpty = false := by decide
  refine ⟨(C7_empty_sets envNoMove 10 tA [] [] ?_).1 rfl,
    (C7_empty_sets envPre 10 tA [10] [] ?_).2 rPre ?_ rfl⟩
  · norm_num [collectMoves, envNoMove, dataNoMove, postMoveOf, preRunupOf]
  · norm_num [collectMoves, envPre, dataPre, postMoveOf, preRunupOf]
  · norm_num [processTicker, processData, envPre, dataPre, infoA, tA, rPre,
      collectMoves, postMoveOf, preRunupOf, avgAbsMove, winRatePct, moveScore,
      round2, roundHalfEven, round_eq, hs, hn]

/-! ## C8 — post-move aggregates -/

/-- C8: for every accepted ticker, `avg_move` is (the 2-decimal rounding
of) the mean of the absolute post-moves and `win_rate` is (the rounding
of) `100 * count(move > 0) / count(post_moves)`; for the post-moves
`[3, -1, 2, -0.5]` the win rate is `50`. -/
theorem C8_aggregates :
    ∀ (env : Env) (sr : ℚ) (t : Candidate) (r : Result) (pm pr : List ℚ),
      processTicker env sr t = some r →
      collectMoves (env.fetch t.symbol) (env.fetch t.symbol).earningsDates =
        .ok (pm, pr) →
      pm ≠ [] ∧
      r.avg_move = round2 ((pm.map fun m => |m|).sum / pm.length) ∧
      r.win_rate =
        round2 (100 * ((pm.countP fun m => decide (0 < m) : ℕ) : ℚ) / pm.length) ∧
      winRatePct [3, -1, 2, -0.5] = 50 := by
  intro env sr t r pm pr hr hcollect
  have hp := processData_of_processTicker hr
  obtain ⟨i, pm', pr', p0, prest, -, hinfo, -, -, -, -, hcollect', hpm', -, hhist, -⟩ :=
    processData_ok_some hp
  rw [hcollect] at hcollect'
  simp only [Except.ok.injEq, Prod.mk.injEq] at hcollect'
  obtain ⟨rfl, rfl⟩ := hcollect'
  refine ⟨hpm', ?_, ?_, by norm_num [winRatePct, List.countP, List.countP.go]⟩
  · rw [processData_fields hp hinfo hcollect hhist]
    rfl
  · rw [processData_fields hp hinfo hcollect hhist]
    show round2 (winRatePct pm) = _
    unfold winRatePct
    congr 1
    ring

/-- C8 witness: the aggregates instantiated in the healthy world, whose
only post-move is `10`. -/
theorem C8_aggregates_witness :
    ([10] : List ℚ) ≠ [] ∧
    rA.avg_move = round2 ((([10] : List ℚ).map fun m => |m|).sum / ([10] : List ℚ).length) ∧
    rA.win_rate =
      round2 (100 * ((([10] : List ℚ).countP fun m => decide (0 < m) : ℕ) : ℚ) /
        ([10] : List ℚ).length) ∧
    winRatePct [3, -1, 2, -0.5] = 50 :=
  C8_aggregates envA 10 tA rA [10] [25] envA_ticker
    (by rw [show envA.fetch tA.symbol = dataA from rfl]; exact dataA_collected)

/-! ## C9 — monotonicity of the filter in the required fields -/

/-- C9: a ticker with a required `info` field absent is always rejected.
Consequently, supplying a value for a previously-missing field can only
move the ticker from rejected to accepted or leave it rejected — the
"accepted before the field was supplied" case the claim rules out cannot
arise at all, so an accepted-to-rejected transition is impossible. -/
theorem C9_missing_field :
    ∀ (env : Env) (sr : ℚ) (t : Candidate) (i : TickerInfo) (fld : InfoField),
      (env.fetch t.symbol).info = .ok i →
      fieldAbsent fld i →
      processTicker env sr t = none := by
  intro env sr t i fld hinfo habs
  unfold processTicker
  cases hp : processData (env.fetch t.symbol) sr t with
  | error e => rfl
  | ok o =>
    cases o with
    | none => rfl
    | some r =>
      obtain ⟨i', pm, pr, p0, prest, -, hinfo', hname, hcap, htarget, -, -, -, hcp, -, -⟩ :=
        processData_ok_some hp
      rw [hinfo] at hinfo'
      simp only [Except.ok.injEq] at hinfo'
      subst hinfo'
      cases fld with
      | shortNameF =>
        simp only [fieldAbsent] at habs
        rw [habs] at hname
        exact absurd hname (by decide)
      | marketCapF =>
        simp only [fieldAbsent] at habs
        rw [habs] at hcap
        simp at hcap
      | targetMeanPriceF =>
        simp only [fieldAbsent] at habs
        rw [habs] at htarget
        simp at htarget
      | currentPriceF =>
        simp only [fieldAbsent] at habs
        rw [habs] at hcp
        simp at hcp

/-- C9 witness: `envF` lacks `targetMeanPrice` and the ticker is
rejected. -/
theorem C9_missing_field_witness : processTicker envF 10 tA = none :=
  C9_missing_field envF 10 tA infoF InfoField.targetMeanPriceF rfl rfl

/-! ## C10 — provenance of the output -/

/-- C10: the ranked output is a permutation of the per-candidate
accumulator, so each record comes from a distinct input candidate
(carrying that candidate's `symbol` and `reportDate`), the output is
never longer than the input, and an empty candidate list yields an empty
output. -/
theorem C10_provenance :
    ∀ (env : Env) (ts : List Candidate) (out : List Result) (sr : ℚ),
      spyRunupOf env = some sr →
      screen_stocks_for_opportunities env ts = some out →
      List.Perm out (ts.filterMap (processTicker env sr)) ∧
      out.length ≤ ts.length ∧
      (∀ r ∈ out, ∃ t ∈ ts, processTicker env sr t = some r ∧
        r.ticker = t.symbol ∧ r.earnings_date = t.reportDate) ∧
      screen_stocks_for_opportunities env [] = some [] := by
  intro env ts out sr hsp hscreen
  obtain ⟨sr', hsp', hout⟩ := screen_eq_some hscreen
  rw [hsp] at hsp'
  injection hsp' with he
  subst he
  unfold rankResults at hout
  have hperm : List.Perm out (ts.filterMap (processTicker env sr)) := by
    rw [hout]
    exact List.mergeSort_perm _ _
  refine ⟨hperm, ?_, ?_, ?_⟩
  · rw [hperm.length_eq]
    exact List.length_filterMap_le _ _
  · intro r hr
    obtain ⟨t, hts, hpt⟩ := List.mem_filterMap.mp (hperm.subset hr)
    obtain ⟨i, pm, pr, p0, prest, -, -, -, -, -, -, -, -, -, -, hr_eq⟩ :=
      processData_ok_some (processData_of_processTicker hpt)
    exact ⟨t, hts, hpt, by rw [hr_eq], by rw [hr_eq]⟩
  · unfold screen_stocks_for_opportunities
    rw [hsp]
    simp [rankResults]

/-- C10 witness: provenance instantiated in the healthy world. -/
theorem C10_provenance_witness :
    List.Perm [rA] ([tA].filterMap (processTicker envA 10)) ∧
    [rA].length ≤ [tA].length ∧
    (∀ r ∈ [rA], ∃ t ∈ [tA], processTicker envA 10 t = some r ∧
      r.ticker = t.symbol ∧ r.earnings_date = t.reportDate) ∧
    screen_stocks_for_opportunities envA [] = some [] :=
  C10_provenance envA [tA] [rA] 10 (by norm_num [spyRunupOf, envA]) envA_screen
